import Mathlib

/-!
Formal model of the FunPay Themes Telegram bot (`bot.py`).

The Python source is shallowly embedded: the SQLite database becomes an explicit
`DB` record manipulated by pure functions mirroring the `Database` methods, the
aiogram finite-state-machine context becomes an explicit per-user draft record,
and each message/callback handler becomes a pure state-transition function.
External effects (the network, image decoding, SHA-256, JSON parsing) are passed
in as fixed function parameters, so that every definition stays executable.

Exceptions are modelled with `Option`: a handler body that Python would abort
with a caught exception returns `none` at the corresponding point.
-/

namespace FunPayBot

/-- JSON values as produced by Python's `json.load`.  Numbers are restricted to
integers, which covers every numeric field the bot reads (`bgBlur`,
`bgBrightness`, `borderRadius`); fractional values can still enter the model as
decimal strings, which the Python `float()`/`int()` conversions below handle. -/
inductive JValue where
  | obj  : List (String × JValue) → JValue
  | arr  : List JValue → JValue
  | str  : String → JValue
  | num  : Int → JValue
  | bool : Bool → JValue
  | null : JValue

/-- Python equality `k == v` between a string `k` and a JSON value: only a string
with the same characters compares equal. -/
def jstrEq (k : String) : JValue → Bool
  | .str s => k == s
  | _ => false

/-- Python membership `k in v` for a string `k`.  For a dict it tests the keys,
for a list it tests the elements, for a string it is a substring test; on any
other value Python raises `TypeError`, modelled as `none`. -/
def jmem (k : String) : JValue → Option Bool
  | .obj l => some (l.any (fun p => p.1 == k))
  | .arr l => some (l.any (jstrEq k))
  | .str s => some (decide (List.IsInfix k.data s.data))
  | _ => none

/-- Dict lookup.  `json.load` keeps the last occurrence of a duplicated key, so
the lookup scans the reversed pair list. -/
def jlookup (l : List (String × JValue)) (k : String) : Option JValue :=
  (l.reverse.find? (fun p => p.1 == k)).map (·.2)

/-- `theme_data.get(k, dflt)` on a dict: the default is used only when the key is
absent (a stored JSON `null` is returned as-is). -/
def jgetLD (l : List (String × JValue)) (k : String) (dflt : JValue) : JValue :=
  (jlookup l k).getD dflt

/-- Python truthiness of a JSON value. -/
def jtruthy : JValue → Bool
  | .null => false
  | .bool b => b
  | .num n => n != 0
  | .str s => !s.isEmpty
  | .arr l => !l.isEmpty
  | .obj l => !l.isEmpty

def hexDigitVal (c : Char) : Option Nat :=
  if '0' ≤ c ∧ c ≤ '9' then some (c.toNat - '0'.toNat)
  else if 'a' ≤ c ∧ c ≤ 'f' then some (c.toNat - 'a'.toNat + 10)
  else if 'A' ≤ c ∧ c ≤ 'F' then some (c.toNat - 'A'.toNat + 10)
  else none

def hexDigitsValAux : List Char → Nat → Option Nat
  | [], acc => some acc
  | c :: cs, acc =>
    match hexDigitVal c with
    | some d => hexDigitsValAux cs (acc * 16 + d)
    | none => none

def stripSpaces (cs : List Char) : List Char :=
  ((cs.dropWhile (· = ' ')).reverse.dropWhile (· = ' ')).reverse

/-- Python `s.startswith(pre)`, computed on the character lists (the
`String.startsWith` of the standard library does not reduce inside the
kernel). -/
def strStartsWith (s pre : String) : Bool := pre.data.isPrefixOf s.data

/-- Python `s.endswith(suf)`, computed on the character lists. -/
def strEndsWith (s suf : String) : Bool := suf.data.reverse.isPrefixOf s.data.reverse

/-- Python `int(s, 16)`: optional surrounding spaces, optional sign, then a
non-empty run of hexadecimal digits (the underscore-separator extension is not
modelled; no input of interest contains it). -/
def pyIntBase16 (s : String) : Option Int :=
  match stripSpaces s.data with
  | '+' :: rest => if rest.isEmpty then none else (hexDigitsValAux rest 0).map Int.ofNat
  | '-' :: rest => if rest.isEmpty then none else (hexDigitsValAux rest 0).map (fun n => -(n : Int))
  | [] => none
  | rest => (hexDigitsValAux rest 0).map Int.ofNat

/-- Python slice `cs[i:i+2]` (clamped at the end of the list). -/
def pySlice2 (cs : List Char) (i : Nat) : List Char :=
  (cs.drop i).take 2

/-- `hex_to_rgb` from `bot.py`: strip leading `#`, then parse the three
two-character slices in base 16.  `none` models the `ValueError` Python raises
on a malformed slice (non-hex character, or an empty slice from a short
string). -/
def hex_to_rgb (hex_color : String) : Option (Int × Int × Int) := do
  let cs := hex_color.data.dropWhile (· = '#')
  let r ← pyIntBase16 (String.mk (pySlice2 cs 0))
  let g ← pyIntBase16 (String.mk (pySlice2 cs 2))
  let b ← pyIntBase16 (String.mk (pySlice2 cs 4))
  pure (r, g, b)

/-- `hex_to_rgb` applied to an arbitrary JSON value: a non-string argument makes
`hex_color.lstrip` raise `AttributeError`, modelled as `none`. -/
def hexToRgbOfJ : JValue → Option (Int × Int × Int)
  | .str s => hex_to_rgb s
  | _ => none

def decDigitsValAux : List Char → Nat → Option Nat
  | [], acc => some acc
  | c :: cs, acc =>
    if c.isDigit then decDigitsValAux cs (acc * 10 + (c.toNat - '0'.toNat)) else none

/-- Python `int(s)`: optional surrounding spaces, optional sign, then a
non-empty run of decimal digits. -/
def pyIntBase10 (s : String) : Option Int :=
  match stripSpaces s.data with
  | '+' :: rest => if rest.isEmpty then none else (decDigitsValAux rest 0).map Int.ofNat
  | '-' :: rest => if rest.isEmpty then none else (decDigitsValAux rest 0).map (fun n => -(n : Int))
  | [] => none
  | rest => (decDigitsValAux rest 0).map Int.ofNat

/-- Python `int(x)` on a JSON value: numbers pass through, strings are parsed in
base 10, booleans become 0/1, anything else raises `TypeError`. -/
def pyInt : JValue → Option Int
  | .num n => some n
  | .str s => pyIntBase10 s
  | .bool b => some (if b then 1 else 0)
  | _ => none

def decDigitsToNat (cs : List Char) : Nat :=
  cs.foldl (fun acc c => acc * 10 + (c.toNat - '0'.toNat)) 0

/-- Exact rational values standing for Python floats, kept as unnormalized
`num/den` pairs (`den` is positive in every use below).  Exact rational
arithmetic is the idealization of IEEE-754 used throughout this model; it is
also what the spec's determinism talk is about, since identical computations
yield identical pairs. -/
structure Frac where
  num : Int
  den : Int
deriving DecidableEq

def Frac.ofInt (n : Int) : Frac := ⟨n, 1⟩

def Frac.mul (a b : Frac) : Frac := ⟨a.num * b.num, a.den * b.den⟩

def Frac.div (a b : Frac) : Frac := ⟨a.num * b.den, a.den * b.num⟩

def Frac.add (a b : Frac) : Frac := ⟨a.num * b.den + b.num * a.den, a.den * b.den⟩

def Frac.neg (a : Frac) : Frac := ⟨-a.num, a.den⟩

/-- Comparison, valid whenever both denominators are positive (true of every
fraction this model builds). -/
def Frac.le (a b : Frac) : Bool := decide (a.num * b.den ≤ b.num * a.den)

def Frac.fmax (a b : Frac) : Frac := if Frac.le a b then b else a

/-- Python `int(f)`: truncation toward zero (`Int.tdiv`, with the positive
denominator). -/
def Frac.trunc (a : Frac) : Int := Int.tdiv a.num a.den

/-- Decimal-literal part of Python `float(s)`: `digits`, `digits.digits`,
`digits.` or `.digits` (exponents and the `inf`/`nan` spellings are not
modelled; no input of interest uses them). -/
def pyFloatDigits (cs : List Char) : Option Frac :=
  match cs.splitOn '.' with
  | [intPart] =>
    if intPart.isEmpty ∨ ¬intPart.all Char.isDigit then none
    else some (Frac.ofInt (decDigitsToNat intPart))
  | [intPart, fracPart] =>
    if (intPart.isEmpty ∧ fracPart.isEmpty) ∨
        ¬intPart.all Char.isDigit ∨ ¬fracPart.all Char.isDigit then none
    else some (Frac.add (Frac.ofInt (decDigitsToNat intPart))
      ⟨decDigitsToNat fracPart, (10 : Int) ^ fracPart.length⟩)
  | _ => none

/-- Python `float(s)` for a string. -/
def pyFloatStr (s : String) : Option Frac :=
  match stripSpaces s.data with
  | '+' :: rest => pyFloatDigits rest
  | '-' :: rest => (pyFloatDigits rest).map Frac.neg
  | rest => pyFloatDigits rest

/-- Python `float(x)` on a JSON value. -/
def pyFloat : JValue → Option Frac
  | .num n => some (Frac.ofInt n)
  | .str s => pyFloatStr s
  | .bool b => some (Frac.ofInt (if b then 1 else 0))
  | _ => none

/-- `float(theme_data.get(k, dflt))` where `dflt` is already a float literal. -/
def pyFloatOfJD (l : List (String × JValue)) (k : String) (dflt : Frac) : Option Frac :=
  match jlookup l k with
  | none => some dflt
  | some v => pyFloat v

/-- `int(theme_data.get(k, dflt))` where `dflt` is already an int literal. -/
def pyIntOfJD (l : List (String × JValue)) (k : String) (dflt : Int) : Option Int :=
  match jlookup l k with
  | none => some dflt
  | some v => pyInt v

/-- The fixed set of mandatory keys checked by `process_theme_file`. -/
def requiredKeys : List String := ["bgColor1", "font", "bgImage"]

/-- `all(k in theme_data for k in ['bgColor1', 'font', 'bgImage'])` from
`process_theme_file`, where a `TypeError` raised by `in` aborts the check (it is
caught by the surrounding `except`, with the same observable outcome as the
explicit `raise ValueError`). -/
def validateParsed (d : JValue) : Bool :=
  requiredKeys.all (fun k => (jmem k d).getD false)

/-- Whether a JSON value is a key-value document (a Python dict). -/
def isObjB : JValue → Bool
  | .obj _ => true
  | _ => false

/-! ## The storage layer (`class Database`)

Rows mirror the two `CREATE TABLE` statements in `Database.setup`.  The `themes`
list is kept in insertion order and `upload_date` is a strictly increasing
counter, so `ORDER BY upload_date DESC` is exactly the reversed list. -/

/-- A row of the `users` table: `(id, username, theme_slots DEFAULT 10,
is_banned DEFAULT 0)`. -/
structure UserRow where
  id : Nat
  username : Option String
  theme_slots : Nat
  banFlag : Nat
deriving DecidableEq

/-- A row of the `themes` table. -/
structure ThemeRow where
  id : Nat
  unique_id : String
  owner_id : Nat
  name : String
  description : Option String
  is_public : Nat
  file_id : String
  file_hash : String
  preview_file_id : String
  upload_date : Nat
deriving DecidableEq

/-- The SQLite database:  `next_id` is the `AUTOINCREMENT` counter of `themes.id`
(first row gets 1) and `clock` stands for `CURRENT_TIMESTAMP`. -/
structure DB where
  users : List UserRow
  themes : List ThemeRow
  next_id : Nat
  clock : Nat
deriving DecidableEq

def DB.get_user (db : DB) (user_id : Nat) : Option UserRow :=
  db.users.find? (fun u => u.id == user_id)

/-- `INSERT OR IGNORE INTO users (id, username) VALUES (?, ?)`: the unspecified
columns take their schema defaults, and an existing row is left untouched. -/
def DB.add_user (db : DB) (user_id : Nat) (username : Option String) : DB :=
  if (db.get_user user_id).isSome then db
  else { db with users := db.users ++ [⟨user_id, username, 10, 0⟩] }

/-- `user and user[3] == 1`. -/
def DB.is_banned (db : DB) (user_id : Nat) : Bool :=
  match db.get_user user_id with
  | some u => u.banFlag == 1
  | none => false

def DB.set_ban_status (db : DB) (user_id : Nat) (status : Bool) : DB :=
  { db with users := db.users.map (fun u =>
      if u.id == user_id then { u with banFlag := if status then 1 else 0 } else u) }

def DB.get_user_theme_count (db : DB) (user_id : Nat) : Nat :=
  (db.themes.filter (fun t => t.owner_id == user_id)).length

def DB.has_duplicate_hash (db : DB) (file_hash : String) : Bool :=
  db.themes.any (fun t => t.file_hash == file_hash)

/-- `Database.add_theme`: a single `INSERT` into `themes` followed by
`return self.cursor.lastrowid`.  The freshly generated `secrets.token_urlsafe(16)`
is passed in as `uid_tok`.  `none` models the `sqlite3.IntegrityError` raised by
the `UNIQUE` constraints on `unique_id`/`file_hash` or by `NOT NULL` on `name`;
the error leaves the table unchanged. -/
def DB.add_theme (db : DB) (uid_tok : String) (owner_id : Nat) (name : Option String)
    (description : Option String) (is_public : Nat) (file_id : String)
    (file_hash : String) (preview_file_id : String) : Option (Nat × DB) :=
  match name with
  | none => none
  | some nm =>
    if db.themes.any (fun t => t.unique_id == uid_tok) then none
    else if db.has_duplicate_hash file_hash then none
    else
      some (db.next_id,
        { db with
          themes := db.themes ++
            [⟨db.next_id, uid_tok, owner_id, nm, description, is_public,
              file_id, file_hash, preview_file_id, db.clock⟩],
          next_id := db.next_id + 1,
          clock := db.clock + 1 })

/-- `SELECT id, name, is_public FROM themes WHERE owner_id = ? ORDER BY
upload_date DESC`. -/
def DB.get_user_themes (db : DB) (user_id : Nat) : List (Nat × String × Nat) :=
  ((db.themes.filter (fun t => t.owner_id == user_id)).reverse).map
    (fun t => (t.id, t.name, t.is_public))

def DB.get_theme_by_id (db : DB) (theme_id : Nat) : Option ThemeRow :=
  db.themes.find? (fun t => t.id == theme_id)

def DB.get_theme_by_unique_id (db : DB) (unique_id : String) : Option ThemeRow :=
  db.themes.find? (fun t => t.unique_id == unique_id)

/-- `DELETE FROM themes WHERE id = ? AND owner_id = ?; return rowcount > 0`. -/
def DB.delete_theme (db : DB) (theme_id : Nat) (user_id : Nat) : Bool × DB :=
  let remaining := db.themes.filter (fun t => !(t.id == theme_id && t.owner_id == user_id))
  (decide (remaining.length < db.themes.length), { db with themes := remaining })

/-- `DELETE FROM themes WHERE id = ?` (no ownership check). -/
def DB.admin_delete_theme (db : DB) (theme_id : Nat) : Bool × DB :=
  let remaining := db.themes.filter (fun t => !(t.id == theme_id))
  (decide (remaining.length < db.themes.length), { db with themes := remaining })

/-- `UPDATE themes SET is_public = ? WHERE id = ? AND owner_id = ?;
return rowcount > 0` (`rowcount` counts matched rows). -/
def DB.set_theme_privacy (db : DB) (theme_id : Nat) (user_id : Nat) (is_public : Nat) :
    Bool × DB :=
  let hit := fun (t : ThemeRow) => t.id == theme_id && t.owner_id == user_id
  (decide (0 < (db.themes.filter hit).length),
   { db with themes := db.themes.map (fun t => if hit t then { t with is_public := is_public } else t) })

/-- `UPDATE users SET theme_slots = theme_slots + ? WHERE id = ?`. -/
def DB.add_theme_slots (db : DB) (user_id : Nat) (slots_to_add : Nat) : DB :=
  { db with users := db.users.map (fun u =>
      if u.id == user_id then { u with theme_slots := u.theme_slots + slots_to_add } else u) }

/-! ## The preview renderer (`generate_preview`)

Pixel composition by the Pillow library is abstracted into a `Bitmap` record
that captures every input-dependent quantity fed to Pillow; the external
decoders are passed in as fixed functions. -/

/-- Abstraction of a decoded raster image: its pixels are identified by the raw
bytes it was decoded from, plus its dimensions. -/
structure ImageData where
  bytes : String
  w : Nat
  h : Nat
deriving DecidableEq

/-- The fixed renderer configuration: the base64 decoder (`base64.b64decode`)
and the image decoder (`Image.open(...).convert("RGBA")`).  Both are
deterministic library functions, unlike the network. -/
structure RenderCfg where
  b64decode : String → Option String
  decodeImage : String → Option ImageData

/-- The composited (scaled, cropped, blurred, brightness-adjusted) background
image layer. -/
structure BgLayer where
  src : ImageData
  new_w : Int
  new_h : Int
  blur : Int
  brightness : Frac
deriving DecidableEq

/-- A fill argument accepted by a Pillow draw call. -/
inductive Fill where
  | color : Int × Int × Int × Int → Fill
  | rawInt : Int → Fill
  | nofill : Fill
deriving DecidableEq

/-- Modelled from the Pillow library: `ImageColor.getrgb` restricted to the hex
forms `#rgb`, `#rgba`, `#rrggbb`, `#rrggbbaa` — the only color syntax the theme
format uses.  Any other string makes the draw call raise `ValueError`. -/
def pilColor (s : String) : Option (Int × Int × Int × Int) :=
  match s.data with
  | '#' :: rest =>
    match rest.mapM hexDigitVal with
    | some [r, g, b] => some (17 * r, 17 * g, 17 * b, 255)
    | some [r, g, b, a] => some (17 * r, 17 * g, 17 * b, 17 * a)
    | some [r1, r2, g1, g2, b1, b2] =>
        some (16 * r1 + r2, 16 * g1 + g2, 16 * b1 + b2, 255)
    | some [r1, r2, g1, g2, b1, b2, a1, a2] =>
        some (16 * r1 + r2, 16 * g1 + g2, 16 * b1 + b2, 16 * a1 + a2)
    | _ => none
  | _ => none

/-- A swatch `fill=` value: a string goes through the color parser, numbers and
booleans are accepted as raw integer color specifiers, `None` means "no fill";
a list or dict makes Pillow raise, failing the whole render. -/
def pilFill : JValue → Option Fill
  | .str s => (pilColor s).map (fun c => .color (c.1, c.2.1, c.2.2.1, c.2.2.2))
  | .num n => some (.rawInt n)
  | .bool b => some (.rawInt (if b then 1 else 0))
  | .null => some .nofill
  | _ => none

/-- The rendered preview: every input-dependent quantity of the composition, in
paint order, plus the fixed encoder settings. -/
structure Bitmap where
  width : Int
  height : Int
  base : Int × Int × Int
  bg : Option BgLayer
  barRadius : Int
  barFill : Int × Int × Int × Int
  swatches : List Fill
  format : String
  quality : Nat
deriving DecidableEq

/-- Python `s.split(',', 1)` into exactly two parts; `none` models the
`ValueError` of unpacking when no comma is present. -/
def splitFirstComma : List Char → Option (List Char × List Char)
  | [] => none
  | c :: cs =>
    if c = ',' then some ([], cs)
    else (splitFirstComma cs).map (fun p => (c :: p.1, p.2))

/-- The inner `try` of `generate_preview` that loads, scales, crops, blurs and
brightness-adjusts the background image.  `none` models the caught exception:
the render then continues with no background layer instead of aborting. -/
def tryLoadBg (rcfg : RenderCfg) (fetch : String → Option String)
    (l : List (String × JValue)) (v : JValue) : Option BgLayer := do
  let url ← (match v with | .str s => some s | _ => none)
  let raw ←
    if strStartsWith url "data:image" then do
      let p ← splitFirstComma url.data
      rcfg.b64decode (String.mk p.2)
    else fetch url
  let img ← rcfg.decodeImage raw
  if img.w = 0 ∨ img.h = 0 then none
  else do
    let scale : Frac := Frac.fmax (Frac.div (Frac.ofInt 1280) (Frac.ofInt img.w))
      (Frac.div (Frac.ofInt 720) (Frac.ofInt img.h))
    let blur ← pyIntOfJD l "bgBlur" 0
    let brightness ← (pyFloatOfJD l "bgBrightness" (Frac.ofInt 100)).map
      (fun b => Frac.div b (Frac.ofInt 100))
    pure { src := img, new_w := (Frac.mul (Frac.ofInt img.w) scale).trunc,
           new_h := (Frac.mul (Frac.ofInt img.h) scale).trunc, blur := blur,
           brightness := brightness }

/-- The swatch loop: Pillow parses each `fill=` value in order and raises at
the first bad one, failing the whole render. -/
def mapFills : List JValue → Option (List Fill)
  | [] => some []
  | v :: vs => do
    let f ← pilFill v
    let fs ← mapFills vs
    pure (f :: fs)

/-- `generate_preview` from `bot.py`.  The outer `try` catches every exception
and returns `None` (the `RenderError` of the spec), modelled by the `Option`
bind; the background-image block degrades instead (see `tryLoadBg`).  The
output path and the actual Pillow buffer are replaced by the `Bitmap`
description of the composition. -/
def generate_preview (rcfg : RenderCfg) (fetch : String → Option String)
    (theme_data : JValue) : Option Bitmap :=
  match theme_data with
  | .obj l => do
    let base ← hexToRgbOfJ (jgetLD l "bgColor1" (.str "#121212"))
    let bg : Option BgLayer :=
      match jlookup l "bgImage" with
      | none => none
      | some v => if jtruthy v then tryLoadBg rcfg fetch l v else none
    let containerRGB ← hexToRgbOfJ (jgetLD l "containerBgColor" (.str "#1e1e1e"))
    let opacity ← pyFloatOfJD l "containerBgOpacity" ⟨85, 100⟩
    let alpha := (Frac.mul opacity (Frac.ofInt 255)).trunc
    let radius ← pyIntOfJD l "borderRadius" 12
    let colorVals := [jgetLD l "bgColor1" (.str "#000000"),
      jgetLD l "bgColor2" (.str "#000000"),
      jgetLD l "containerBgColor" (.str "#1e1e1e"),
      jgetLD l "textColor" (.str "#ffffff"),
      jgetLD l "linkColor" (.str "#0099ff")]
    let fills ← mapFills colorVals
    pure { width := 1280, height := 720, base := base, bg := bg,
           barRadius := radius,
           barFill := (containerRGB.1, containerRGB.2.1, containerRGB.2.2, alpha),
           swatches := fills, format := "JPEG", quality := 90 }
  | _ => none

/-! ## The submission state machine (aiogram FSM context + handlers)

`UploadTheme` and `AdminStates` are the two `StatesGroup`s; the per-user
`FSMContext` holds an optional current state plus a data dict, which
`update_data` merges into and `clear` empties.  Each handler becomes a pure
function on the whole system state. -/

inductive BotState where
  | waiting_for_file | waiting_for_name | waiting_for_description | waiting_for_privacy
  | broadcast_message | delete_theme_id | ban_user_id | unban_user_id
deriving DecidableEq

def isUploadStage : BotState → Bool
  | .waiting_for_file | .waiting_for_name | .waiting_for_description | .waiting_for_privacy => true
  | _ => false

/-- The keys `upload_theme` handlers store in `FSMContext` data.  `name` and
`description` hold `message.text`, which aiogram gives as `None` for non-text
messages, hence the nested `Option`. -/
structure DraftData where
  file_id : Option String
  file_hash : Option String
  theme_data : Option JValue
  name : Option (Option String)
  description : Option (Option String)
  is_public : Option Nat

def emptyDraft : DraftData := ⟨none, none, none, none, none, none⟩

/-- One user's `FSMContext`. -/
structure FSMState where
  stage : Option BotState
  data : DraftData

/-- The whole mutable state of the process: the database plus every user's FSM
context. -/
structure Sys where
  db : DB
  fsm : Nat → FSMState

def setFsm (f : Nat → FSMState) (u : Nat) (st : FSMState) : Nat → FSMState :=
  fun v => if v = u then st else f v

/-- `state.clear()` for one user. -/
def clearFsm (s : Sys) (u : Nat) : Sys :=
  { s with fsm := setFsm s.fsm u ⟨none, emptyDraft⟩ }

/-- `command_start_handler`: `state.clear()` then `db.add_user`; the deep-link
payload branch only reads the database. -/
def command_start_handler (s : Sys) (u : Nat) (username : Option String) : Sys :=
  { db := (clearFsm s u).db.add_user u username, fsm := (clearFsm s u).fsm }

/-- The `"start"` callback (`back_to_start`): `state.clear()` only. -/
def back_to_start (s : Sys) (u : Nat) : Sys := clearFsm s u

/-- `check_sub_callback` success branch: it forwards `callback.message` (whose
`from_user` is the bot) to `command_start_handler`, so the *user's* context is
cleared while the *bot's* account id is upserted. -/
def check_sub_ok (s : Sys) (u : Nat) (bot_id : Nat) (bot_name : Option String) : Sys :=
  { db := (clearFsm s u).db.add_user bot_id bot_name, fsm := (clearFsm s u).fsm }

/-- The effective slot count used by `upload_theme_start`:
`user_info[2] if user_info else 10`. -/
def effSlots (db : DB) (u : Nat) : Nat :=
  match db.get_user u with
  | some ur => ur.theme_slots
  | none => 10

/-- `upload_theme_start`: reject (no state change at all) when the quota is
filled, otherwise enter `waiting_for_file`.  `set_state` does not touch the
data dict, so any previously accumulated draft fields survive. -/
def upload_theme_start (s : Sys) (u : Nat) : Sys :=
  if s.db.get_user_theme_count u ≥ effSlots s.db u then s
  else
    { s with fsm := setFsm s.fsm u ⟨some .waiting_for_file, (s.fsm u).data⟩ }

/-- `process_theme_file`.  `sha` stands for `hashlib.sha256(...).hexdigest()`
and `parse` for reading the file as UTF-8 and `json.load`-ing it (both fixed
functions of the raw bytes); `maxBytes` is `config.MAX_FILE_SIZE_MB * 1024 *
1024`.  Every rejection branch replies and leaves the state untouched. -/
def process_theme_file (sha : String → String) (parse : String → Option JValue)
    (maxBytes : Nat) (s : Sys) (u : Nat) (fileName : String) (fileSize : Nat)
    (fileId : String) (bytes : String) : Sys :=
  if (s.fsm u).stage ≠ some .waiting_for_file then s
  else if ¬ strEndsWith fileName ".fptheme" then s
  else if fileSize > maxBytes then s
  else
    let file_hash := sha bytes
    if s.db.has_duplicate_hash file_hash then s
    else
      match parse bytes with
      | none => s
      | some theme_data =>
        if ¬ validateParsed theme_data then s
        else
          let d0 := (s.fsm u).data
          let d := { d0 with file_id := some fileId, file_hash := some file_hash, theme_data := some theme_data }
          { s with fsm := setFsm s.fsm u ⟨some .waiting_for_name, d⟩ }

def process_theme_name (s : Sys) (u : Nat) (text : Option String) : Sys :=
  if (s.fsm u).stage ≠ some .waiting_for_name then s
  else
    let d := { (s.fsm u).data with name := some text }
    { s with fsm := setFsm s.fsm u ⟨some .waiting_for_description, d⟩ }

def process_theme_description (s : Sys) (u : Nat) (text : Option String) : Sys :=
  if (s.fsm u).stage ≠ some .waiting_for_description then s
  else
    let d := { (s.fsm u).data with description := some text }
    { s with fsm := setFsm s.fsm u ⟨some .waiting_for_privacy, d⟩ }

/-- What `process_theme_privacy` lets the submitter observe: whether the upload
finished with the success caption, and the `unique_id` embedded in the private
share link when one was produced. -/
structure FinalizeOut where
  success : Bool
  emittedLink : Option String
deriving DecidableEq

/-- `process_theme_privacy`, the `Finalizing` stage.  `uid_tok` is the
`secrets.token_urlsafe(16)` drawn inside `add_theme` and `preview_file_id` the
Telegram handle of the uploaded preview photo.  A missing `theme_data` key
raises `KeyError` *outside* the `try`, killing the handler with the draft kept;
every other failure ends in the `finally` clause, which clears the draft. -/
def process_theme_privacy (rcfg : RenderCfg) (fetch : String → Option String)
    (s : Sys) (u : Nat) (choice : String) (uid_tok : String)
    (preview_file_id : String) : Sys × FinalizeOut :=
  if ¬((s.fsm u).stage = some .waiting_for_privacy ∧ strStartsWith choice "set_privacy_" = true) then
    (s, ⟨false, none⟩)
  else
    let is_public : Nat := if choice == "set_privacy_public" then 1 else 0
    let d := { (s.fsm u).data with is_public := some is_public }
    let s1 : Sys := { s with fsm := setFsm s.fsm u ⟨some .waiting_for_privacy, d⟩ }
    match d.theme_data with
    | none => (s1, ⟨false, none⟩)
    | some theme_data =>
      match generate_preview rcfg fetch theme_data with
      | none => (clearFsm s1 u, ⟨false, none⟩)
      | some _bm =>
        match d.name, d.description, d.file_id, d.file_hash with
        | some nm, some ds, some fid, some fh =>
          (match s1.db.add_theme uid_tok u nm ds is_public fid fh preview_file_id with
           | none => (clearFsm s1 u, ⟨false, none⟩)
           | some (_rid, db') =>
             if is_public ≠ 1 then
               match (db'.get_user_themes u).head? with
               | none => ({ db := db', fsm := (clearFsm s1 u).fsm }, ⟨false, none⟩)
               | some (tid, _, _) =>
                 match db'.get_theme_by_id tid with
                 | some ti =>
                     ({ db := db', fsm := (clearFsm s1 u).fsm }, ⟨true, some ti.unique_id⟩)
                 | none => ({ db := db', fsm := (clearFsm s1 u).fsm }, ⟨true, none⟩)
             else ({ db := db', fsm := (clearFsm s1 u).fsm }, ⟨true, none⟩))
        | _, _, _, _ => (clearFsm s1 u, ⟨false, none⟩)

/-- `change_privacy_handler` (`privacy_theme_{id}_{status}` callbacks). -/
def change_privacy_handler (s : Sys) (u : Nat) (theme_id : Nat) (status : Nat) : Sys :=
  { s with db := (s.db.set_theme_privacy theme_id u status).2 }

/-- `confirm_delete_handler` (`confirm_delete_{id}` callbacks). -/
def confirm_delete_handler (s : Sys) (u : Nat) (theme_id : Nat) : Sys :=
  { s with db := (s.db.delete_theme theme_id u).2 }

/-- `successful_payment_handler` on a `buy_slots_{uid}_{n}` payload. -/
def successful_payment_handler (s : Sys) (uid : Nat) (n : Nat) : Sys :=
  { s with db := s.db.add_theme_slots uid n }

/-- `admin_actions`: the admin panel buttons set one of the `AdminStates`
without touching the data dict. -/
def admin_actions (s : Sys) (u : Nat) (st : BotState) : Sys :=
  { s with fsm := setFsm s.fsm u ⟨some st, (s.fsm u).data⟩ }

/-- `broadcast_message`: `state.clear()` then read-only sends. -/
def broadcast_message (s : Sys) (u : Nat) : Sys :=
  if (s.fsm u).stage ≠ some .broadcast_message then s else clearFsm s u

/-- `admin_delete_theme_by_id`: clears the state, then deletes when the text
parses as a (non-negative) integer id. -/
def admin_delete_theme_by_id (s : Sys) (u : Nat) (text : String) : Sys :=
  if (s.fsm u).stage ≠ some .delete_theme_id then s
  else
    let s1 := clearFsm s u
    match pyIntBase10 text with
    | some n => if 0 ≤ n then { s1 with db := (s1.db.admin_delete_theme n.toNat).2 } else s1
    | none => s1

/-- `admin_ban_user` / `admin_unban_user`. -/
def admin_set_ban (s : Sys) (u : Nat) (text : String) (status : Bool)
    (stage : BotState) : Sys :=
  if (s.fsm u).stage ≠ some stage then s
  else
    let s1 := clearFsm s u
    match pyIntBase10 text with
    | some n => if 0 ≤ n then { s1 with db := s1.db.set_ban_status n.toNat status } else s1
    | none => s1

/-- The system as started by `main()`: empty tables, no FSM contexts. -/
def initSys : Sys :=
  { db := { users := [], themes := [], next_id := 1, clock := 0 },
    fsm := fun _ => ⟨none, emptyDraft⟩ }

/-- One dispatch of any state-changing handler.  `sha` and `parse` are the
fixed digest/JSON oracles shared by the whole run. -/
inductive Step (sha : String → String) (parse : String → Option JValue) :
    Sys → Sys → Prop where
  | cmdStart : ∀ s u un, Step sha parse s (command_start_handler s u un)
  | back : ∀ s u, Step sha parse s (back_to_start s u)
  | checkSub : ∀ s u b bn, Step sha parse s (check_sub_ok s u b bn)
  | uploadStart : ∀ s u, Step sha parse s (upload_theme_start s u)
  | file : ∀ s u fn sz fid bytes maxB,
      Step sha parse s (process_theme_file sha parse maxB s u fn sz fid bytes)
  | name : ∀ s u t, Step sha parse s (process_theme_name s u t)
  | descr : ∀ s u t, Step sha parse s (process_theme_description s u t)
  | privacy : ∀ s u rcfg fetch choice tok pv,
      Step sha parse s (process_theme_privacy rcfg fetch s u choice tok pv).1
  | setPrivacy : ∀ s u tid st, Step sha parse s (change_privacy_handler s u tid st)
  | delTheme : ∀ s u tid, Step sha parse s (confirm_delete_handler s u tid)
  | payment : ∀ s uid n, Step sha parse s (successful_payment_handler s uid n)
  | adminPanel : ∀ s u st, isUploadStage st = false →
      Step sha parse s (admin_actions s u st)
  | adminBroadcast : ∀ s u, Step sha parse s (broadcast_message s u)
  | adminDelete : ∀ s u t, Step sha parse s (admin_delete_theme_by_id s u t)
  | adminBan : ∀ s u t st stage, isUploadStage stage = false →
      Step sha parse s (admin_set_ban s u t st stage)

/-- States reachable from process start. -/
inductive Reach (sha : String → String) (parse : String → Option JValue) : Sys → Prop where
  | init : Reach sha parse initSys
  | step : ∀ s t, Reach sha parse s → Step sha parse s t → Reach sha parse t

/-! ## Basic facts about the storage operations -/

theorem themes_add_user (db : DB) (i : Nat) (un : Option String) :
    (db.add_user i un).themes = db.themes := by
  unfold DB.add_user; split <;> rfl

theorem next_id_add_user (db : DB) (i : Nat) (un : Option String) :
    (db.add_user i un).next_id = db.next_id := by
  unfold DB.add_user; split <;> rfl

theorem count_congr (db db' : DB) (h : db'.themes = db.themes) (v : Nat) :
    db'.get_user_theme_count v = db.get_user_theme_count v := by
  unfold DB.get_user_theme_count; rw [h]

theorem effSlots_congr (db db' : DB) (h : db'.users = db.users) (v : Nat) :
    effSlots db' v = effSlots db v := by
  unfold effSlots DB.get_user; rw [h]

/-- `INSERT OR IGNORE` never changes the effective slot count of anybody: an
existing row is untouched, and a fresh row carries the default 10 that an
absent row already counted for. -/
theorem effSlots_add_user (db : DB) (i : Nat) (un : Option String) (v : Nat) :
    effSlots (db.add_user i un) v = effSlots db v := by
  unfold DB.add_user
  split
  · rfl
  · unfold effSlots DB.get_user
    dsimp only
    rw [List.find?_append]
    cases hf : db.users.find? (fun u => u.id == v) with
    | some u => rfl
    | none =>
      cases hv : (i == v) <;> simp [List.find?, hv]

theorem find?_map_pres {α : Type} (f : α → α) (p : α → Bool)
    (hf : ∀ a, p (f a) = p a) (l : List α) :
    (l.map f).find? p = (l.find? p).map f := by
  induction l with
  | nil => rfl
  | cons a t ih =>
    rw [List.map_cons, List.find?_cons, List.find?_cons, hf]
    cases hpa : p a
    · exact ih
    · rfl

theorem filter_map_pres {α : Type} (f : α → α) (p : α → Bool)
    (hf : ∀ a, p (f a) = p a) (l : List α) :
    (l.map f).filter p = (l.filter p).map f := by
  induction l with
  | nil => rfl
  | cons a t ih =>
    simp only [List.map_cons, List.filter_cons, hf]
    cases hpa : p a <;> simp [ih]

theorem effSlots_set_ban (db : DB) (i : Nat) (st : Bool) (v : Nat) :
    effSlots (db.set_ban_status i st) v = effSlots db v := by
  unfold DB.set_ban_status effSlots DB.get_user
  dsimp only
  rw [find?_map_pres _ _ (fun a => by by_cases h : a.id = i <;> simp [h])]
  cases db.users.find? (fun u => u.id == v) with
  | some u => by_cases h : u.id = i <;> simp [h]
  | none => rfl

theorem effSlots_grant (db : DB) (i : Nat) (n : Nat) (v : Nat) :
    effSlots db v ≤ effSlots (db.add_theme_slots i n) v := by
  unfold DB.add_theme_slots effSlots DB.get_user
  dsimp only
  rw [find?_map_pres _ _ (fun a => by by_cases h : a.id = i <;> simp [h])]
  cases db.users.find? (fun u => u.id == v) with
  | some u => by_cases h : u.id = i <;> simp [h]
  | none => exact Nat.le_refl _

theorem count_set_privacy (db : DB) (tid uid pub v : Nat) :
    (db.set_theme_privacy tid uid pub).2.get_user_theme_count v =
      db.get_user_theme_count v := by
  unfold DB.set_theme_privacy DB.get_user_theme_count
  rw [filter_map_pres _ _ (fun a => by by_cases h : (a.id == tid && a.owner_id == uid) = true <;> simp [h]),
    List.length_map]

theorem count_filter_le (db : DB) (keep : ThemeRow → Bool) (v : Nat) :
    ({ db with themes := db.themes.filter keep } : DB).get_user_theme_count v ≤
      db.get_user_theme_count v := by
  unfold DB.get_user_theme_count
  exact ((List.filter_sublist _).filter _).length_le

/-- `(l ++ [row])` seen through an owner filter. -/
theorem count_append_row (l : List ThemeRow) (row : ThemeRow) (v : Nat) :
    ((l ++ [row]).filter (fun t => t.owner_id == v)).length =
      (l.filter (fun t => t.owner_id == v)).length +
        (if row.owner_id = v then 1 else 0) := by
  rw [List.filter_append]
  by_cases hrv : row.owner_id = v <;>
    simp [List.filter_cons, hrv]

theorem not_dup_iff (db : DB) (fh : String) :
    db.has_duplicate_hash fh = false ↔ ∀ t ∈ db.themes, t.file_hash ≠ fh := by
  unfold DB.has_duplicate_hash
  rw [← Bool.not_eq_true, List.any_eq_true]
  push_neg
  constructor
  · intro h t ht
    have := h t ht
    simpa using this
  · intro h t ht
    simpa using h t ht

/-- Everything `add_theme` guarantees on success. -/
theorem add_theme_spec (db : DB) (tok : String) (owner : Nat) (nm : Option String)
    (ds : Option String) (pub : Nat) (fid fh pv : String) (rid : Nat) (db' : DB)
    (h : db.add_theme tok owner nm ds pub fid fh pv = some (rid, db')) :
    ∃ name0, nm = some name0 ∧ rid = db.next_id ∧
      db'.themes = db.themes ++
        [⟨db.next_id, tok, owner, name0, ds, pub, fid, fh, pv, db.clock⟩] ∧
      db'.next_id = db.next_id + 1 ∧ db'.users = db.users ∧
      db.has_duplicate_hash fh = false := by
  unfold DB.add_theme at h
  match hnm : nm with
  | none => exact absurd h (by simp)
  | some name0 =>
    dsimp only at h
    split at h
    · exact absurd h (by simp)
    · split at h
      · exact absurd h (by simp)
      · next hdup =>
        injection h with h1
        injection h1 with hrid hdb
        refine ⟨name0, rfl, hrid.symm, ?_, ?_, ?_, ?_⟩
        · rw [← hdb]
        · rw [← hdb]
        · rw [← hdb]
        · exact Bool.not_eq_true _ ▸ hdup

/-- `add_theme` refuses a duplicated content hash, whatever the other
arguments are. -/
theorem add_theme_dup_hash (db : DB) (tok : String) (owner : Nat)
    (nm ds : Option String) (pub : Nat) (fid fh pv : String)
    (h : db.has_duplicate_hash fh = true) :
    db.add_theme tok owner nm ds pub fid fh pv = none := by
  unfold DB.add_theme
  match nm with
  | none => rfl
  | some n =>
    dsimp only
    split
    · rfl
    · simp [h]

/-! ## The reachability invariant -/

/-- The invariant maintained by every handler: per-owner quota (strict while
that owner is inside an upload dialog), global `file_hash` uniqueness, and
freshness of the `AUTOINCREMENT` counter. -/
def Inv (s : Sys) : Prop :=
  (∀ u, s.db.get_user_theme_count u ≤ effSlots s.db u) ∧
  (∀ u st, (s.fsm u).stage = some st → isUploadStage st = true →
    s.db.get_user_theme_count u < effSlots s.db u) ∧
  List.Pairwise (fun a b : ThemeRow => a.file_hash ≠ b.file_hash) s.db.themes ∧
  (∀ t ∈ s.db.themes, t.id < s.db.next_id)

/-- `Inv` only constrains FSM contexts through their stage, so any rewrite of
the contexts that clears stages, keeps them, or installs a stage justified by a
quota bound preserves it. -/
theorem inv_fsm_only (s : Sys) (f' : Nat → FSMState)
    (hch : ∀ v, f' v = s.fsm v ∨ (f' v).stage = none ∨
      (∃ st0, (f' v).stage = some st0 ∧
        (isUploadStage st0 = true → s.db.get_user_theme_count v < effSlots s.db v)))
    (h : Inv s) : Inv { s with fsm := f' } := by
  obtain ⟨h1, h2, h3, h4⟩ := h
  refine ⟨h1, ?_, h3, h4⟩
  intro v st hst hup
  rcases hch v with he | hn | ⟨st0, hs0, hq⟩
  · exact h2 v st (by rw [show ({ s with fsm := f' } : Sys).fsm v = f' v from rfl, he] at hst; exact hst) hup
  · rw [show ({ s with fsm := f' } : Sys).fsm v = f' v from rfl, hn] at hst; cases hst
  · rw [show ({ s with fsm := f' } : Sys).fsm v = f' v from rfl, hs0] at hst
    injection hst with h'
    subst h'
    exact hq hup

/-- A database change that keeps the themes table and never shrinks anybody's
effective slots preserves `Inv` (covers `add_user`, `set_ban_status`,
`add_theme_slots`). -/
theorem inv_db_users (s : Sys) (db' : DB) (hth : db'.themes = s.db.themes)
    (hni : db'.next_id = s.db.next_id)
    (heff : ∀ v, effSlots s.db v ≤ effSlots db' v)
    (h : Inv s) : Inv { s with db := db' } := by
  obtain ⟨h1, h2, h3, h4⟩ := h
  refine ⟨?_, ?_, ?_, ?_⟩
  · intro u
    rw [show ({ s with db := db' } : Sys).db = db' from rfl, count_congr s.db db' hth]
    exact le_trans (h1 u) (heff u)
  · intro u st hst hup
    rw [show ({ s with db := db' } : Sys).db = db' from rfl, count_congr s.db db' hth]
    exact lt_of_lt_of_le (h2 u st hst hup) (heff u)
  · rw [show ({ s with db := db' } : Sys).db = db' from rfl, hth]; exact h3
  · intro t ht
    rw [show ({ s with db := db' } : Sys).db = db' from rfl, hth] at ht
    rw [show ({ s with db := db' } : Sys).db = db' from rfl, hni]
    exact h4 t ht

/-- A database change that filters the themes table (a `DELETE`) preserves
`Inv`. -/
theorem inv_db_filter (s : Sys) (db' : DB) (keep : ThemeRow → Bool)
    (hth : db'.themes = s.db.themes.filter keep)
    (hus : db'.users = s.db.users) (hni : db'.next_id = s.db.next_id)
    (h : Inv s) : Inv { s with db := db' } := by
  obtain ⟨h1, h2, h3, h4⟩ := h
  have hcnt : ∀ v, db'.get_user_theme_count v ≤ s.db.get_user_theme_count v := by
    intro v
    unfold DB.get_user_theme_count
    rw [hth]
    exact (((s.db.themes.filter_sublist ).filter _)).length_le
  have heff : ∀ v, effSlots db' v = effSlots s.db v := fun v => effSlots_congr _ _ hus v
  refine ⟨?_, ?_, ?_, ?_⟩
  · intro u
    rw [show ({ s with db := db' } : Sys).db = db' from rfl, heff]
    exact le_trans (hcnt u) (h1 u)
  · intro u st hst hup
    rw [show ({ s with db := db' } : Sys).db = db' from rfl, heff]
    exact lt_of_le_of_lt (hcnt u) (h2 u st hst hup)
  · rw [show ({ s with db := db' } : Sys).db = db' from rfl, hth]
    exact List.Pairwise.sublist (s.db.themes.filter_sublist) h3
  · intro t ht
    rw [show ({ s with db := db' } : Sys).db = db' from rfl, hth] at ht
    rw [show ({ s with db := db' } : Sys).db = db' from rfl, hni]
    exact h4 t (List.mem_of_mem_filter ht)

/-- Committing a theme row through `add_theme` while the owner's dialog is in
`waiting_for_privacy` (hence strictly under quota) and clearing that owner's
context preserves `Inv`. -/
theorem inv_commit (s : Sys) (u : Nat) (f' : Nat → FSMState)
    (hf'u : (f' u).stage = none) (hf' : ∀ v, v ≠ u → f' v = s.fsm v)
    (hstage : (s.fsm u).stage = some .waiting_for_privacy)
    (tok : String) (nm ds : Option String) (pub : Nat) (fid fh pv : String)
    (rid : Nat) (db' : DB)
    (hadd : s.db.add_theme tok u nm ds pub fid fh pv = some (rid, db'))
    (h : Inv s) : Inv { db := db', fsm := f' } := by
  obtain ⟨h1, h2, h3, h4⟩ := h
  obtain ⟨n0, hn0, hrid, hth, hni, hus, hdup⟩ :=
    add_theme_spec _ _ _ _ _ _ _ _ _ _ _ hadd
  have heff : ∀ v, effSlots db' v = effSlots s.db v := fun v => effSlots_congr _ _ hus v
  have hcnt : ∀ v, db'.get_user_theme_count v =
      s.db.get_user_theme_count v + (if u = v then 1 else 0) := by
    intro v
    unfold DB.get_user_theme_count
    rw [hth, count_append_row]
  have hu : s.db.get_user_theme_count u < effSlots s.db u := h2 u _ hstage rfl
  refine ⟨?_, ?_, ?_, ?_⟩
  · intro v
    show db'.get_user_theme_count v ≤ effSlots db' v
    rw [hcnt, heff]
    by_cases hv : u = v
    · subst hv; simpa using hu
    · simpa [hv] using h1 v
  · intro v st hst hup
    show db'.get_user_theme_count v < effSlots db' v
    dsimp only at hst
    by_cases hv : v = u
    · subst hv; rw [hf'u] at hst; cases hst
    · rw [hf' v hv] at hst
      rw [hcnt, heff]
      have hlt := h2 v st hst hup
      have hvu : ¬ u = v := fun hh => hv hh.symm
      simpa [hvu] using hlt
  · show List.Pairwise _ db'.themes
    rw [hth]
    refine (List.pairwise_append).mpr ⟨h3, List.pairwise_singleton _ _, ?_⟩
    intro a ha b hb
    rw [List.mem_singleton] at hb
    subst hb
    exact (not_dup_iff _ _ |>.mp hdup) a ha
  · intro t ht
    show t.id < db'.next_id
    rw [hth] at ht
    rw [hni]
    rcases List.mem_append.mp ht with hmem | hmem
    · exact Nat.lt_succ_of_lt (h4 t hmem)
    · rw [List.mem_singleton] at hmem
      subst hmem
      exact Nat.lt_succ_self _

/-- Clearing one user's FSM context preserves `Inv` (modulo nothing else
changing). -/
theorem inv_clear (s : Sys) (u : Nat) (h : Inv s) : Inv (clearFsm s u) := by
  apply inv_fsm_only s _ _ h
  intro v
  by_cases hv : v = u
  · subst hv; right; left; simp [setFsm]
  · left; simp [setFsm, hv]

theorem inv_change_privacy (s : Sys) (u tid st : Nat) (h : Inv s) :
    Inv (change_privacy_handler s u tid st) := by
  obtain ⟨h1, h2, h3, h4⟩ := h
  have hth : (s.db.set_theme_privacy tid u st).2.themes =
      s.db.themes.map (fun t =>
        if t.id == tid && t.owner_id == u then { t with is_public := st } else t) := rfl
  have hpres : ∀ t : ThemeRow,
      (if t.id == tid && t.owner_id == u then { t with is_public := st } else t).file_hash
        = t.file_hash := by
    intro t; split <;> rfl
  have hpid : ∀ t : ThemeRow,
      (if t.id == tid && t.owner_id == u then { t with is_public := st } else t).id
        = t.id := by
    intro t; split <;> rfl
  refine ⟨?_, ?_, ?_, ?_⟩
  · intro v
    show (s.db.set_theme_privacy tid u st).2.get_user_theme_count v ≤
      effSlots (s.db.set_theme_privacy tid u st).2 v
    rw [count_set_privacy, effSlots_congr s.db (s.db.set_theme_privacy tid u st).2 rfl]
    exact h1 v
  · intro v st0 hst hup
    show (s.db.set_theme_privacy tid u st).2.get_user_theme_count v <
      effSlots (s.db.set_theme_privacy tid u st).2 v
    rw [count_set_privacy, effSlots_congr s.db (s.db.set_theme_privacy tid u st).2 rfl]
    exact h2 v st0 hst hup
  · show List.Pairwise _ (s.db.set_theme_privacy tid u st).2.themes
    rw [hth, List.pairwise_map]
    exact h3.imp (fun hab => by rw [hpres, hpres]; exact hab)
  · intro t ht
    replace ht : t ∈ (s.db.set_theme_privacy tid u st).2.themes := ht
    show t.id < (s.db.set_theme_privacy tid u st).2.next_id
    rw [hth] at ht
    rw [List.mem_map] at ht
    obtain ⟨a, ha, rfl⟩ := ht
    rw [hpid]
    exact h4 a ha

/-- Every dispatch preserves the invariant. -/
theorem inv_step (sha : String → String) (parse : String → Option JValue)
    (s t : Sys) (h : Inv s) (hs : Step sha parse s t) : Inv t := by
  cases hs with
  | cmdStart u un =>
    exact inv_db_users (clearFsm s u) _ (themes_add_user _ _ _) (next_id_add_user _ _ _)
      (fun v => le_of_eq (effSlots_add_user _ _ _ _).symm) (inv_clear s u h)
  | back u => exact inv_clear s u h
  | checkSub u b bn =>
    exact inv_db_users (clearFsm s u) _ (themes_add_user _ _ _) (next_id_add_user _ _ _)
      (fun v => le_of_eq (effSlots_add_user _ _ _ _).symm) (inv_clear s u h)
  | uploadStart u =>
    unfold upload_theme_start
    split
    · exact h
    · next hq =>
      apply inv_fsm_only s _ _ h
      intro v
      by_cases hv : v = u
      · subst hv
        right; right
        exact ⟨.waiting_for_file, by simp [setFsm], fun _ => Nat.lt_of_not_le hq⟩
      · left; simp [setFsm, hv]
  | file u fn sz fid bytes maxB =>
    simp only [process_theme_file]
    split
    · exact h
    next hstage =>
      split
      · exact h
      split
      · exact h
      split
      · exact h
      split
      · exact h
      split
      · exact h
      apply inv_fsm_only s _ _ h
      intro v
      by_cases hv : v = u
      · subst hv
        right; right
        refine ⟨.waiting_for_name, by simp [setFsm], fun _ => ?_⟩
        exact h.2.1 v .waiting_for_file (not_not.mp hstage) rfl
      · left; simp [setFsm, hv]
  | name u txt =>
    unfold process_theme_name
    split
    · exact h
    next hstage =>
      apply inv_fsm_only s _ _ h
      intro v
      by_cases hv : v = u
      · subst hv
        right; right
        refine ⟨.waiting_for_description, by simp [setFsm], fun _ => ?_⟩
        exact h.2.1 v .waiting_for_name (not_not.mp hstage) rfl
      · left; simp [setFsm, hv]
  | descr u txt =>
    unfold process_theme_description
    split
    · exact h
    next hstage =>
      apply inv_fsm_only s _ _ h
      intro v
      by_cases hv : v = u
      · subst hv
        right; right
        refine ⟨.waiting_for_privacy, by simp [setFsm], fun _ => ?_⟩
        exact h.2.1 v .waiting_for_description (not_not.mp hstage) rfl
      · left; simp [setFsm, hv]
  | privacy u rcfg fetch choice tok pv =>
    simp only [process_theme_privacy]
    split
    · exact h
    next hguard =>
      have hg := not_not.mp hguard
      have hstage : (s.fsm u).stage = some .waiting_for_privacy := hg.1
      have hmid : ∀ d : DraftData,
          Inv { s with fsm := setFsm s.fsm u ⟨some .waiting_for_privacy, d⟩ } := by
        intro d
        apply inv_fsm_only s _ _ h
        intro v
        by_cases hv : v = u
        · subst hv
          right; right
          exact ⟨.waiting_for_privacy, by simp [setFsm],
            fun _ => h.2.1 v .waiting_for_privacy hstage rfl⟩
        · left; simp [setFsm, hv]
      have hcleared : ∀ d : DraftData,
          Inv (clearFsm { s with fsm := setFsm s.fsm u ⟨some .waiting_for_privacy, d⟩ } u) :=
        fun d => inv_clear _ u (hmid d)
      split
      · exact hmid _
      next td htd =>
        split
        · exact hcleared _
        next bm hbm =>
          split
          case _ nm ds fid fh hnm hds hfid hfh =>
            split
            · exact hcleared _
            next rid db' hadd =>
              have hcommit : ∀ f' : Nat → FSMState, (f' u).stage = none →
                  (∀ v, v ≠ u → f' v = s.fsm v) → Inv { db := db', fsm := f' } := by
                intro f' hfu hfv
                exact inv_commit s u f' hfu hfv hstage _ _ _ _ _ _ _ _ _ hadd h
              repeat' split
              all_goals
                exact hcommit _ (by simp [clearFsm, setFsm])
                  (fun v hv => by simp [clearFsm, setFsm, hv])
          case _ => exact hcleared _
  | setPrivacy u tid st => exact inv_change_privacy s u tid st h
  | delTheme u tid =>
    exact inv_db_filter s _ (fun t => !(t.id == tid && t.owner_id == u)) rfl rfl rfl h
  | payment uid n =>
    exact inv_db_users s _ rfl rfl (fun v => effSlots_grant _ _ _ _) h
  | adminPanel u st hst =>
    apply inv_fsm_only s _ _ h
    intro v
    by_cases hv : v = u
    · subst hv
      right; right
      exact ⟨st, by simp [setFsm], fun hup => by rw [hst] at hup; cases hup⟩
    · left; simp [setFsm, hv]
  | adminBroadcast u =>
    unfold broadcast_message
    split
    · exact h
    · exact inv_clear s u h
  | adminDelete u txt =>
    simp only [admin_delete_theme_by_id]
    split
    · exact h
    · split
      · split
        · exact inv_db_filter (clearFsm s u) _ (fun t => !(t.id == _)) rfl rfl rfl
            (inv_clear s u h)
        · exact inv_clear s u h
      · exact inv_clear s u h
  | adminBan u txt st stage hstage =>
    simp only [admin_set_ban]
    split
    · exact h
    · split
      · split
        · exact inv_db_users (clearFsm s u) _ rfl rfl
            (fun v => le_of_eq (effSlots_set_ban _ _ _ _).symm) (inv_clear s u h)
        · exact inv_clear s u h
      · exact inv_clear s u h

/-- The invariant holds in every reachable state. -/
theorem inv_reach (sha : String → String) (parse : String → Option JValue)
    (s : Sys) (h : Reach sha parse s) : Inv s := by
  induction h with
  | init =>
    refine ⟨?_, ?_, ?_, ?_⟩
    · intro u
      show ((List.nil.filter _).length) ≤ effSlots initSys.db u
      simp [effSlots, DB.get_user, initSys]
    · intro u st hst
      exact absurd hst (by simp [initSys])
    · exact List.Pairwise.nil
    · intro t ht
      exact absurd ht (by simp [initSys])
  | step s t _ hs ih => exact inv_step _ _ _ _ ih hs

/-! ## Concrete fixtures used by witnesses and counterexamples -/

/-- A stand-in digest function for the examples (any fixed function works; the
dedup logic only relies on equal bytes giving equal digests). -/
def shaX : String → String := fun b => String.append "sha256:" b

/-- A well-formed theme document (all mandatory keys, no background image). -/
def cfgX : JValue :=
  .obj [("bgColor1", .str "#112233"), ("font", .str "f"), ("bgImage", .str "")]

def parseX : String → Option JValue := fun _ => some cfgX

/-- A renderer configuration whose decoders always succeed with a 1280x720
image carrying the input bytes. -/
def rcfgX : RenderCfg := ⟨fun s => some s, fun b => some ⟨b, 1280, 720⟩⟩

def fetchNone : String → Option String := fun _ => none

/-- A concrete run: user 5 starts, uploads a valid fresh file, names and
describes it, and publishes it. -/
def w0 : Sys := command_start_handler initSys 5 (some "alice")
def w1 : Sys := upload_theme_start w0 5
def w2 : Sys := process_theme_file shaX parseX 5242880 w1 5 "a.fptheme" 100 "FID" "BYTES"
def w3 : Sys := process_theme_name w2 5 (some "MyTheme")
def w4 : Sys := process_theme_description w3 5 (some "desc")
def w5 : Sys :=
  (process_theme_privacy rcfgX fetchNone w4 5 "set_privacy_public" "TOK" "PV").1

theorem reach_w4 : Reach shaX parseX w4 :=
  Reach.step _ _ (Reach.step _ _ (Reach.step _ _ (Reach.step _ _
    (Reach.step _ _ Reach.init (Step.cmdStart initSys 5 (some "alice")))
    (Step.uploadStart w0 5))
    (Step.file w1 5 "a.fptheme" 100 "FID" "BYTES" 5242880))
    (Step.name w2 5 (some "MyTheme")))
    (Step.descr w3 5 (some "desc"))

theorem reach_w5 : Reach shaX parseX w5 :=
  Reach.step _ _ reach_w4 (Step.privacy w4 5 rcfgX fetchNone "set_privacy_public" "TOK" "PV")

/-! ## The claims -/

/-- Claim C2: quota enforcement.  In every reachable state, `upload_theme_start`
leaves the system completely unchanged whenever the owner's theme count has
reached the effective slot count, and the count never exceeds the effective
slot count (so no successful completion can push it past the quota). -/
theorem C2_quota_enforced (sha : String → String) (parse : String → Option JValue)
    (s : Sys) (hs : Reach sha parse s) (u : Nat) :
    (s.db.get_user_theme_count u ≥ effSlots s.db u → upload_theme_start s u = s) ∧
    s.db.get_user_theme_count u ≤ effSlots s.db u := by
  refine ⟨?_, (inv_reach sha parse s hs).1 u⟩
  intro hq
  unfold upload_theme_start
  rw [if_pos hq]

theorem C2_quota_enforced_witness :
    (w5.db.get_user_theme_count 5 ≥ effSlots w5.db 5 → upload_theme_start w5 5 = w5) ∧
    w5.db.get_user_theme_count 5 ≤ effSlots w5.db 5 :=
  C2_quota_enforced shaX parseX w5 reach_w5 5

/-- Claim C7: `add_user` (the upsert) creates an absent row with the schema
defaults `theme_slots = 10`, `is_banned = 0`, and a second call with the same
id — whatever display name it passes — is a complete no-op, so quota and ban
state are never reset. -/
theorem C7_upsert_user_idempotent (db : DB) (i : Nat) (un un' : Option String) :
    (db.get_user i = none →
      (db.add_user i un).get_user i = some ⟨i, un, 10, 0⟩) ∧
    (db.add_user i un).add_user i un' = db.add_user i un := by
  have hfresh : db.get_user i = none →
      (db.add_user i un).get_user i = some ⟨i, un, 10, 0⟩ := by
    intro h0
    unfold DB.add_user
    rw [if_neg (by rw [h0]; simp)]
    unfold DB.get_user at h0 ⊢
    dsimp only
    rw [List.find?_append, h0]
    simp [List.find?]
  refine ⟨hfresh, ?_⟩
  have hsome : ((db.add_user i un).get_user i).isSome = true := by
    cases h0 : db.get_user i with
    | some u0 =>
      unfold DB.add_user
      rw [if_pos (by rw [h0]; rfl)]
      rw [h0]; rfl
    | none => rw [hfresh h0]; rfl
  conv_lhs => rw [DB.add_user]
  rw [if_pos hsome]

theorem C7_upsert_user_idempotent_witness :
    (initSys.db.get_user 7 = none →
      (initSys.db.add_user 7 (some "bob")).get_user 7 = some ⟨7, some "bob", 10, 0⟩) ∧
    (initSys.db.add_user 7 (some "bob")).add_user 7 (some "other") =
      initSys.db.add_user 7 (some "bob") :=
  C7_upsert_user_idempotent initSys.db 7 (some "bob") (some "other")

/-- Claim C8: owner-scoped mutation.  If no stored theme with the given id
belongs to the caller, both `delete_theme` and `set_theme_privacy` return
`false` and leave the database (every row of the themes table) unchanged. -/
theorem C8_owner_scoped_mutation (db : DB) (tid caller pub : Nat)
    (h : ∀ t ∈ db.themes, t.id = tid → t.owner_id ≠ caller) :
    db.delete_theme tid caller = (false, db) ∧
    db.set_theme_privacy tid caller pub = (false, db) := by
  have hmiss : ∀ t ∈ db.themes, (t.id == tid && t.owner_id == caller) = false := by
    intro t ht
    by_cases h1 : t.id = tid
    · have h2 := h t ht h1
      simp [h1, h2]
    · simp [h1]
  constructor
  · simp only [DB.delete_theme]
    have hkeep : db.themes.filter (fun t => !(t.id == tid && t.owner_id == caller))
        = db.themes :=
      List.filter_eq_self.mpr (fun t ht => by rw [hmiss t ht]; rfl)
    rw [hkeep]
    rw [decide_eq_false (Nat.lt_irrefl _)]
  · simp only [DB.set_theme_privacy]
    have hnone : db.themes.filter (fun t => t.id == tid && t.owner_id == caller) = [] := by
      rw [List.filter_eq_nil_iff]
      intro t ht
      rw [hmiss t ht]
      simp
    have hmap : db.themes.map (fun t =>
        if t.id == tid && t.owner_id == caller then { t with is_public := pub } else t)
        = db.themes := by
      rw [List.map_congr_left (fun t ht => by rw [hmiss t ht]; rfl) (g := id), List.map_id]
    rw [hnone, hmap]
    rfl


theorem C8_owner_scoped_mutation_witness :
    w5.db.delete_theme 1 6 = (false, w5.db) ∧
    w5.db.set_theme_privacy 1 6 0 = (false, w5.db) :=
  C8_owner_scoped_mutation w5.db 1 6 0 (by decide)

/-- Claim C10: a caller with no `users` row is not rejected by
`upload_theme_start`: the quota check falls back to the default of 10 slots,
and the caller is admitted to `waiting_for_file` whenever they own fewer than
10 themes. -/
theorem C10_default_quota_unknown_user (s : Sys) (u : Nat)
    (h1 : s.db.get_user u = none) (h2 : s.db.get_user_theme_count u < 10) :
    effSlots s.db u = 10 ∧
    upload_theme_start s u =
      { s with fsm := setFsm s.fsm u ⟨some .waiting_for_file, (s.fsm u).data⟩ } := by
  have he : effSlots s.db u = 10 := by unfold effSlots; rw [h1]
  refine ⟨he, ?_⟩
  unfold upload_theme_start
  rw [if_neg]
  rw [he]
  exact Nat.not_le.mpr h2

theorem C10_default_quota_unknown_user_witness :
    effSlots initSys.db 3 = 10 ∧
    upload_theme_start initSys 3 =
      { initSys with
        fsm := setFsm initSys.fsm 3 ⟨some .waiting_for_file, (initSys.fsm 3).data⟩ } :=
  C10_default_quota_unknown_user initSys 3 rfl (by decide)

/-- Claim C1: global content deduplication.  In every reachable state the
stored `file_hash`es are pairwise distinct; an upload whose bytes digest to an
already-stored hash is rejected by `process_theme_file` with the whole system
state unchanged (the draft does not advance); and a direct `add_theme` call
with an already-stored `content_hash` fails on the storage uniqueness
constraint (returning the `IntegrityError` outcome, with no row written),
whatever its other arguments. -/
theorem C1_content_dedup (sha : String → String) (parse : String → Option JValue)
    (s : Sys) (hs : Reach sha parse s) :
    List.Pairwise (fun a b : ThemeRow => a.file_hash ≠ b.file_hash) s.db.themes ∧
    (∀ u fn sz fid bytes maxB, s.db.has_duplicate_hash (sha bytes) = true →
      process_theme_file sha parse maxB s u fn sz fid bytes = s) ∧
    (∀ tok owner nm ds pub fid pv fh, s.db.has_duplicate_hash fh = true →
      s.db.add_theme tok owner nm ds pub fid fh pv = none) := by
  refine ⟨(inv_reach sha parse s hs).2.2.1, ?_, ?_⟩
  · intro u fn sz fid bytes maxB hdup
    simp only [process_theme_file, hdup]
    split
    · rfl
    split
    · rfl
    split
    · rfl
    simp
  · intro tok owner nm ds pub fid pv fh hdup
    exact add_theme_dup_hash s.db tok owner nm ds pub fid fh pv hdup

theorem C1_content_dedup_witness :
    List.Pairwise (fun a b : ThemeRow => a.file_hash ≠ b.file_hash) w5.db.themes ∧
    process_theme_file shaX parseX 5242880 w5 6 "b.fptheme" 50 "F2" "BYTES" = w5 ∧
    w5.db.add_theme "TOK2" 6 (some "n") none 1 "f2" (shaX "BYTES") "p2" = none := by
  obtain ⟨a, b, c⟩ := C1_content_dedup shaX parseX w5 reach_w5
  exact ⟨a, b 6 "b.fptheme" 50 "F2" "BYTES" 5242880 (by decide),
    c "TOK2" 6 (some "n") none 1 "f2" "p2" (shaX "BYTES") (by decide)⟩

/-- A valid (all mandatory keys present) theme document whose primary
background color is a malformed hex string. -/
def badColorCfg : JValue :=
  .obj [("bgColor1", .str "zzzzzz"), ("font", .str "f"), ("bgImage", .str "")]

/-- Claim C3 counterexample: a theme configuration that passes validation but
carries a malformed `bgColor1` makes `generate_preview` return `None` (the
render error) — the malformed color is not replaced by a default, and no
bitmap is produced, contradicting the claim. -/
theorem C3_counterexample :
    validateParsed badColorCfg = true ∧
    generate_preview rcfgX fetchNone badColorCfg = none := by decide

/-- If one value of a list maps to no fill, the whole swatch pass fails. -/
theorem mapFills_mem_none (l : List JValue) (v : JValue) (hv : v ∈ l)
    (h : pilFill v = none) : mapFills l = none := by
  induction l with
  | nil => cases hv
  | cons a t ih =>
    rcases List.mem_cons.mp hv with rfl | hvt
    · simp [mapFills, h]
    · cases ha : pilFill a <;> simp [mapFills, ha, ih hvt]

/-- Claim C3 amended: a malformed color string in `bgColor1`,
`containerBgColor` or a swatch color (`textColor` here, representative of the
swatch strip) makes `generate_preview` return the render error, which aborts
the submission (draft discarded, nothing stored); the fixed default colors are
substituted only when the key is absent, in which case the render still
returns a bitmap whose base fill is the default (18, 18, 18). -/
theorem C3_malformed_color_aborts (rcfg : RenderCfg) (fetch : String → Option String)
    (l : List (String × JValue)) :
    (∀ c1, jlookup l "bgColor1" = some (.str c1) → hex_to_rgb c1 = none →
      generate_preview rcfg fetch (.obj l) = none) ∧
    (∀ c2, jlookup l "containerBgColor" = some (.str c2) → hex_to_rgb c2 = none →
      generate_preview rcfg fetch (.obj l) = none) ∧
    (∀ c3, jlookup l "textColor" = some (.str c3) → pilColor c3 = none →
      generate_preview rcfg fetch (.obj l) = none) ∧
    (∀ bm, jlookup l "bgColor1" = none →
      generate_preview rcfg fetch (.obj l) = some bm → bm.base = (18, 18, 18)) ∧
    (∀ s u choice tok pv td, (s.fsm u).stage = some .waiting_for_privacy →
      strStartsWith choice "set_privacy_" = true →
      (s.fsm u).data.theme_data = some td →
      generate_preview rcfg fetch td = none →
      (process_theme_privacy rcfg fetch s u choice tok pv).1.db = s.db ∧
      ((process_theme_privacy rcfg fetch s u choice tok pv).1.fsm u).stage = none ∧
      (process_theme_privacy rcfg fetch s u choice tok pv).2 = ⟨false, none⟩) := by
  refine ⟨?_, ?_, ?_, ?_, ?_⟩
  · intro c1 h1 h2
    simp [generate_preview, jgetLD, h1, hexToRgbOfJ, h2]
  · intro c2 h1 h2
    cases hb : hexToRgbOfJ (jgetLD l "bgColor1" (.str "#121212")) with
    | none => simp [generate_preview, hb]
    | some base => simp [generate_preview, hb, jgetLD, h1, hexToRgbOfJ, h2]
  · intro c3 h1 h2
    cases hb : hexToRgbOfJ (jgetLD l "bgColor1" (.str "#121212")) with
    | none => simp [generate_preview, hb]
    | some base =>
      cases hc : hexToRgbOfJ (jgetLD l "containerBgColor" (.str "#1e1e1e")) with
      | none => simp [generate_preview, hb, hc]
      | some cc =>
        cases ho : pyFloatOfJD l "containerBgOpacity" ⟨85, 100⟩ with
        | none => simp [generate_preview, hb, hc, ho]
        | some o =>
          cases hr : pyIntOfJD l "borderRadius" 12 with
          | none => simp [generate_preview, hb, hc, ho, hr]
          | some r =>
            have hfills : mapFills [jgetLD l "bgColor1" (.str "#000000"),
                jgetLD l "bgColor2" (.str "#000000"),
                jgetLD l "containerBgColor" (.str "#1e1e1e"),
                jgetLD l "textColor" (.str "#ffffff"),
                jgetLD l "linkColor" (.str "#0099ff")] = none := by
              refine mapFills_mem_none _ (jgetLD l "textColor" (.str "#ffffff"))
                (List.mem_cons_of_mem _ (List.mem_cons_of_mem _
                  (List.mem_cons_of_mem _ (List.mem_cons_self _ _)))) ?_
              rw [jgetLD, h1]
              simp [pilFill, h2]
            simp [generate_preview, hb, hc, ho, hr, hfills]
  · intro bm h1 hsome
    have hdflt : hexToRgbOfJ (jgetLD l "bgColor1" (.str "#121212"))
        = some (18, 18, 18) := by
      rw [jgetLD, h1]
      decide
    simp only [generate_preview, hdflt, Option.bind_eq_bind, Option.some_bind] at hsome
    rw [Option.bind_eq_some] at hsome
    obtain ⟨cc, _, hsome⟩ := hsome
    rw [Option.bind_eq_some] at hsome
    obtain ⟨o, _, hsome⟩ := hsome
    rw [Option.bind_eq_some] at hsome
    obtain ⟨r, _, hsome⟩ := hsome
    rw [Option.bind_eq_some] at hsome
    obtain ⟨fills, _, hsome⟩ := hsome
    injection hsome with hbm
    rw [← hbm]
  · intro s u choice tok pv td hst hsw htd hrender
    simp only [process_theme_privacy]
    rw [if_neg (not_not_intro ⟨hst, hsw⟩)]
    rw [htd]
    simp only [hrender]
    simp [clearFsm, setFsm]

def lBadContainer : List (String × JValue) :=
  [("bgColor1", .str "#112233"), ("containerBgColor", .str "bad"), ("font", .str "f")]

def lBadText : List (String × JValue) :=
  [("bgColor1", .str "#112233"), ("textColor", .str "nope"), ("font", .str "f")]

def lNoBase : List (String × JValue) := [("font", .str "f")]

def parseBad : String → Option JValue := fun _ => some badColorCfg

/-- The run of user 5 up to the visibility choice with the malformed-color
document as the accepted draft. -/
def v4 : Sys :=
  process_theme_description
    (process_theme_name
      (process_theme_file shaX parseBad 5242880 (upload_theme_start
        (command_start_handler initSys 5 (some "alice")) 5) 5 "a.fptheme" 100 "FID" "BYTES")
      5 (some "Bad")) 5 (some "desc")

theorem C3_malformed_color_aborts_witness :
    generate_preview rcfgX fetchNone (.obj [("bgColor1", .str "zz"), ("font", .str "f")]) = none ∧
    generate_preview rcfgX fetchNone (.obj lBadContainer) = none ∧
    generate_preview rcfgX fetchNone (.obj lBadText) = none ∧
    (generate_preview rcfgX fetchNone (.obj lNoBase)).map (fun b => b.base)
      = some (18, 18, 18) ∧
    ((process_theme_privacy rcfgX fetchNone v4 5 "set_privacy_public" "T" "P").1.db
      = v4.db ∧
     ((process_theme_privacy rcfgX fetchNone v4 5 "set_privacy_public" "T" "P").1.fsm 5).stage
      = none ∧
     (process_theme_privacy rcfgX fetchNone v4 5 "set_privacy_public" "T" "P").2
      = ⟨false, none⟩) := by
  refine ⟨?_, ?_, ?_, ?_, ?_⟩
  · exact (C3_malformed_color_aborts rcfgX fetchNone _).1 "zz" rfl (by decide)
  · exact (C3_malformed_color_aborts rcfgX fetchNone lBadContainer).2.1 "bad" rfl (by decide)
  · exact (C3_malformed_color_aborts rcfgX fetchNone lBadText).2.2.1 "nope" rfl (by decide)
  · cases hbm : generate_preview rcfgX fetchNone (.obj lNoBase) with
    | none => exact absurd hbm (by decide)
    | some bm =>
      rw [Option.map_some']
      rw [(C3_malformed_color_aborts rcfgX fetchNone lNoBase).2.2.2.1 bm rfl hbm]
  · exact (C3_malformed_color_aborts rcfgX fetchNone []).2.2.2.2 v4 5
      "set_privacy_public" "T" "P" badColorCfg (by decide) (by decide) rfl (by decide)

/-- Whether the renderer's background step would consult the network for this
document: a non-empty string `bgImage` that is not an inline `data:image` URI. -/
def usesNetwork : JValue → Bool
  | .obj l =>
    match jlookup l "bgImage" with
    | some (.str sv) => !sv.isEmpty && !(strStartsWith sv "data:image")
    | _ => false
  | _ => false

/-- A validated document pointing at a remote background image. -/
def remoteCfg : JValue :=
  .obj [("bgColor1", .str "#112233"), ("font", .str "f"),
    ("bgImage", .str "http://img.example/bg.png")]

/-- Claim C4 counterexample: the same configuration under the same renderer
configuration rendered twice, with the remote host serving different bytes for
the background image on the two invocations, yields different bitmaps — the
render is not a function of the config and renderer configuration alone. -/
theorem C4_counterexample :
    generate_preview rcfgX (fun _ => some "IMGA") remoteCfg ≠
    generate_preview rcfgX (fun _ => some "IMGB") remoteCfg := by decide

/-- Claim C4 amended: `generate_preview` is a pure function of the
configuration, the renderer configuration (decoders) and the network fetch
results; in particular, whenever the document does not reference a remote
background image (no `bgImage`, a non-string or empty value, or an inline
`data:` URI), the output is independent of the network entirely. -/
theorem C4_render_deterministic (rcfg : RenderCfg) (fetch fetch' : String → Option String)
    (td : JValue) (h : usesNetwork td = false) :
    generate_preview rcfg fetch td = generate_preview rcfg fetch' td := by
  cases td with
  | obj l =>
    have hbg : (match jlookup l "bgImage" with
        | none => (none : Option BgLayer)
        | some v => if jtruthy v then tryLoadBg rcfg fetch l v else none) =
        (match jlookup l "bgImage" with
        | none => none
        | some v => if jtruthy v then tryLoadBg rcfg fetch' l v else none) := by
      cases hl : jlookup l "bgImage" with
      | none => rfl
      | some v =>
        cases v with
        | str sv =>
          simp only [usesNetwork, hl] at h
          by_cases he : sv.isEmpty
          · simp [jtruthy, he]
          · have hds : strStartsWith sv "data:image" = true := by
              rcases Bool.and_eq_false_iff.mp h with h' | h'
              · exact absurd h' (by simp [he])
              · simpa using h'
            simp [jtruthy, he, tryLoadBg, hds]
        | obj l' => cases hj : jtruthy (.obj l') <;> simp [hj, tryLoadBg]
        | arr l' => cases hj : jtruthy (.arr l') <;> simp [hj, tryLoadBg]
        | num n => cases hj : jtruthy (.num n) <;> simp [hj, tryLoadBg]
        | bool b => cases hj : jtruthy (.bool b) <;> simp [hj, tryLoadBg]
        | null => rfl
    simp only [generate_preview]
    rw [hbg]
  | arr l => rfl
  | str sv => rfl
  | num n => rfl
  | bool b => rfl
  | null => rfl

theorem C4_render_deterministic_witness :
    generate_preview rcfgX (fun _ => some "A") cfgX =
    generate_preview rcfgX (fun _ => some "B") cfgX :=
  C4_render_deterministic rcfgX (fun _ => some "A") (fun _ => some "B") cfgX (by decide)

/-- A JSON array that contains the three mandatory key names as elements. -/
def arrDoc : JValue := .arr [.str "bgColor1", .str "font", .str "bgImage"]

/-- Claim C6 counterexample: a JSON array listing the three key names passes
validation (`k in data` is list membership for a list) although it is not a
key-value document, refuting the claimed "if and only if the bytes parse as a
structured key-value document". -/
theorem C6_counterexample :
    validateParsed arrDoc = true ∧ isObjB arrDoc = false := by decide

/-- Claim C6 amended: for a parsed key-value document acceptance is exactly the
presence of the three mandatory keys, and the accepted document is stored
unchanged in the draft (unknown keys and all) for the renderer; the membership
check, however, also accepts some non-dict JSON values (arrays containing the
key names, strings containing them as substrings), so acceptance does not
imply that the artifact is a key-value document. -/
theorem C6_validator_acceptance (l : List (String × JValue)) :
    (validateParsed (.obj l) = true ↔
      ∀ k ∈ requiredKeys, (l.any (fun p => p.1 == k)) = true) ∧
    (∀ sha parse maxB s u fn sz fid bytes td,
      (s.fsm u).stage = some BotState.waiting_for_file →
      strEndsWith fn ".fptheme" = true → sz ≤ maxB →
      s.db.has_duplicate_hash (sha bytes) = false →
      parse bytes = some td → validateParsed td = true →
      ((process_theme_file sha parse maxB s u fn sz fid bytes).fsm u).data.theme_data
        = some td) := by
  constructor
  · unfold validateParsed
    rw [List.all_eq_true]
    constructor
    · intro h k hk
      simpa [jmem] using h k hk
    · intro h k hk
      simpa [jmem] using h k hk
  · intro sha parse maxB s u fn sz fid bytes td hst hfn hsz hdup hparse hval
    simp only [process_theme_file]
    rw [if_neg (not_not_intro hst), if_neg (not_not_intro hfn),
      if_neg (Nat.not_lt.mpr hsz), if_neg (by simp [hdup]), hparse]
    simp [hval, setFsm]

theorem C6_validator_acceptance_witness :
    (validateParsed (.obj [("bgColor1", .str "#112233"), ("font", .str "f"),
        ("bgImage", .str ""), ("extraKey", .num 3)]) = true ↔
      ∀ k ∈ requiredKeys,
        ([("bgColor1", JValue.str "#112233"), ("font", .str "f"),
          ("bgImage", .str ""), ("extraKey", .num 3)].any (fun p => p.1 == k)) = true) ∧
    ((process_theme_file shaX parseX 5242880 w1 5 "a.fptheme" 100 "FID" "BYTES").fsm 5).data.theme_data
      = some cfgX := by
  refine ⟨(C6_validator_acceptance _).1, ?_⟩
  exact (C6_validator_acceptance []).2 shaX parseX 5242880 w1 5 "a.fptheme" 100 "FID"
    "BYTES" cfgX (by decide) (by decide) (by decide) (by decide) rfl (by decide)

/-- Claim C9 counterexample: user 5 has an incomplete draft (file accepted,
name "MyTheme" entered); pressing the upload button again moves the stage back
to `waiting_for_file` but the session data still carries the old name and the
old content hash — the new draft does not begin empty. -/
theorem C9_counterexample :
    ((upload_theme_start w3 5).fsm 5).stage = some BotState.waiting_for_file ∧
    ((upload_theme_start w3 5).fsm 5).data.name = some (some "MyTheme") ∧
    ((upload_theme_start w3 5).fsm 5).data.file_hash = some (shaX "BYTES") := by
  decide

/-- The full new-upload dialog, dispatched in order for one submitter choosing
public visibility. -/
def fullUploadRun (sha : String → String) (parse : String → Option JValue)
    (rcfg : RenderCfg) (fetch : String → Option String) (maxB : Nat) (s : Sys) (u : Nat)
    (fn : String) (sz : Nat) (fid bytes nm ds tok pv : String) : Sys × FinalizeOut :=
  process_theme_privacy rcfg fetch
    (process_theme_description
      (process_theme_name
        (process_theme_file sha parse maxB (upload_theme_start s u) u fn sz fid bytes)
        u (some nm))
      u (some ds))
    u "set_privacy_public" tok pv

/-- Claim C9 amended: starting a new upload resets only the stage to
`waiting_for_file`, keeping previously accumulated fields in the session data;
but every field is overwritten by the new dialog's steps before it is used, so
a completed new submission stores exactly the newly provided file reference,
hash, name, description and visibility — nothing from the prior draft — and
ends with the context fully cleared. -/
theorem C9_fresh_draft_overwrite (sha : String → String) (parse : String → Option JValue)
    (rcfg : RenderCfg) (fetch : String → Option String) (maxB : Nat) (s : Sys) (u : Nat)
    (fn : String) (sz : Nat) (fid bytes nm ds tok pv : String) (td : JValue) (bm : Bitmap)
    (hq : s.db.get_user_theme_count u < effSlots s.db u)
    (hfn : strEndsWith fn ".fptheme" = true) (hsz : sz ≤ maxB)
    (hdup : s.db.has_duplicate_hash (sha bytes) = false)
    (hparse : parse bytes = some td) (hval : validateParsed td = true)
    (hrender : generate_preview rcfg fetch td = some bm)
    (htok : (s.db.themes.any (fun t => t.unique_id == tok)) = false) :
    (upload_theme_start s u).fsm u = ⟨some .waiting_for_file, (s.fsm u).data⟩ ∧
    (fullUploadRun sha parse rcfg fetch maxB s u fn sz fid bytes nm ds tok pv).1.db.themes
      = s.db.themes ++
        [⟨s.db.next_id, tok, u, nm, some ds, 1, fid, sha bytes, pv, s.db.clock⟩] ∧
    (fullUploadRun sha parse rcfg fetch maxB s u fn sz fid bytes nm ds tok pv).1.fsm u
      = ⟨none, emptyDraft⟩ ∧
    (fullUploadRun sha parse rcfg fetch maxB s u fn sz fid bytes nm ds tok pv).2
      = ⟨true, none⟩ := by
  have hq' : ¬ s.db.get_user_theme_count u ≥ effSlots s.db u := Nat.not_le.mpr hq
  have hsz' : ¬ sz > maxB := Nat.not_lt.mpr hsz
  have hsw : strStartsWith "set_privacy_public" "set_privacy_" = true := by decide
  refine ⟨by simp [upload_theme_start, hq', setFsm], ?_, ?_, ?_⟩ <;>
    simp [fullUploadRun, upload_theme_start, process_theme_file, process_theme_name,
      process_theme_description, process_theme_privacy, DB.add_theme, clearFsm, setFsm,
      hq', hfn, hsz', hdup, hparse, hval, hrender, htok, hsw]

theorem C9_fresh_draft_overwrite_witness :
    ((upload_theme_start w3 5).fsm 5 = ⟨some .waiting_for_file, (w3.fsm 5).data⟩) ∧
    (fullUploadRun shaX parseX rcfgX fetchNone 5242880 w3 5 "new.fptheme" 60 "NEWFID"
        "NEWBYTES" "NewName" "NewDesc" "NEWTOK" "NEWPV").1.db.themes
      = w3.db.themes ++
        [⟨w3.db.next_id, "NEWTOK", 5, "NewName", some "NewDesc", 1, "NEWFID",
          shaX "NEWBYTES", "NEWPV", w3.db.clock⟩] ∧
    (fullUploadRun shaX parseX rcfgX fetchNone 5242880 w3 5 "new.fptheme" 60 "NEWFID"
        "NEWBYTES" "NewName" "NewDesc" "NEWTOK" "NEWPV").1.fsm 5 = ⟨none, emptyDraft⟩ ∧
    (fullUploadRun shaX parseX rcfgX fetchNone 5242880 w3 5 "new.fptheme" 60 "NEWFID"
        "NEWBYTES" "NewName" "NewDesc" "NEWTOK" "NEWPV").2 = ⟨true, none⟩ := by
  cases hbm : generate_preview rcfgX fetchNone cfgX with
  | none => exact absurd hbm (by decide)
  | some bm =>
    exact C9_fresh_draft_overwrite shaX parseX rcfgX fetchNone 5242880 w3 5 "new.fptheme"
      60 "NEWFID" "NEWBYTES" "NewName" "NewDesc" "NEWTOK" "NEWPV" cfgX bm
      (by decide) (by decide) (by decide) (by decide) rfl (by decide) hbm (by decide)

/-- After a successful `add_theme`, the owner's most recent theme (first of
`get_user_themes`) is the new row, and looking its id up returns it — the
`AUTOINCREMENT` freshness hypothesis rules out id collisions with older
rows. -/
theorem add_theme_lookup (db : DB) (hids : ∀ t ∈ db.themes, t.id < db.next_id)
    (tok : String) (u : Nat) (nm ds : Option String) (pub : Nat) (fid fh pv : String)
    (rid : Nat) (db' : DB)
    (hadd : db.add_theme tok u nm ds pub fid fh pv = some (rid, db')) :
    ∃ name0, nm = some name0 ∧
      (db'.get_user_themes u).head? = some (rid, name0, pub) ∧
      db'.get_theme_by_id rid = some ⟨rid, tok, u, name0, ds, pub, fid, fh, pv, db.clock⟩ := by
  obtain ⟨n0, hn0, hrid, hth, hni, hus, hdup⟩ := add_theme_spec _ _ _ _ _ _ _ _ _ _ _ hadd
  subst hn0
  subst hrid
  refine ⟨n0, rfl, ?_, ?_⟩
  · unfold DB.get_user_themes
    rw [hth, List.filter_append]
    simp
  · unfold DB.get_theme_by_id
    rw [hth, List.find?_append]
    have hnone : db.themes.find? (fun t => t.id == db.next_id) = none := by
      rw [List.find?_eq_none]
      intro t ht
      simp [Nat.ne_of_lt (hids t ht)]
    rw [hnone]
    simp [List.find?]

/-- On the public visibility choice, `process_theme_privacy` never emits a
share link, success or not. -/
theorem finalize_public_no_link (rcfg : RenderCfg) (fetch : String → Option String)
    (s : Sys) (u : Nat) (tok pv : String) :
    (process_theme_privacy rcfg fetch s u "set_privacy_public" tok pv).2.emittedLink
      = none := by
  have hbq : ("set_privacy_public" == "set_privacy_public") = true := rfl
  simp only [process_theme_privacy, hbq, if_true]
  repeat' split
  all_goals first | rfl | simp_all

/-- On a non-public visibility choice, a successful finalization emits exactly
the `unique_id` that was drawn for the new row. -/
theorem finalize_private_emits_token (rcfg : RenderCfg) (fetch : String → Option String)
    (s : Sys) (u : Nat) (choice tok pv : String)
    (hids : ∀ t ∈ s.db.themes, t.id < s.db.next_id)
    (hpriv : (choice == "set_privacy_public") = false) :
    (process_theme_privacy rcfg fetch s u choice tok pv).2.success = true →
    (process_theme_privacy rcfg fetch s u choice tok pv).2.emittedLink = some tok := by
  simp only [process_theme_privacy, hpriv, Bool.false_eq_true, if_false]
  split
  · simp
  split
  · simp
  split
  · simp
  split
  case _ nm ds fid fh hnm hds hfid hfh =>
    split
    · simp
    next rid db' hadd =>
      obtain ⟨n0, hn0, hhead, hbyid⟩ :=
        add_theme_lookup s.db hids tok u nm ds 0 fid fh pv rid db' hadd
      split
      · split
        · next hzero => rw [hhead] at hzero; cases hzero
        · next tid x y hsome =>
          rw [hhead] at hsome
          injection hsome with hsome'
          have htid : rid = tid := congrArg Prod.fst hsome'
          split
          · next ti hti =>
            intro _
            rw [← htid, hbyid] at hti
            injection hti with hti'
            rw [← hti']
          · next hti =>
            rw [← htid, hbyid] at hti
            cases hti
      · next h0 => exact absurd (by decide : (0 : Nat) ≠ 1) h0
  case _ => simp

/-- Claim C5 counterexample: at the ready-to-finalize state `w4`, a successful
public finalization emits no public id at all, and a direct `add_theme` call
returns the internal sequential row id 1, while the row's unguessable
`public_id` is the stored "TOK" — the return value is the internal id, not the
public one. -/
theorem C5_counterexample :
    (process_theme_privacy rcfgX fetchNone w4 5 "set_privacy_public" "TOK" "PV").2
      = ⟨true, none⟩ ∧
    (w4.db.add_theme "TOK" 5 (some "MyTheme") (some "desc") 1 "FID" (shaX "BYTES") "PV").map
      (fun p => p.1) = some 1 ∧
    (w4.db.add_theme "TOK" 5 (some "MyTheme") (some "desc") 1 "FID" (shaX "BYTES") "PV").map
      (fun p => p.2.themes.map (fun t => (t.id, t.unique_id))) = some [(1, "TOK")] ∧
    ("TOK" : String) ≠ "1" := by
  refine ⟨by decide, by decide, by decide, by decide⟩

/-- Claim C5 amended: `add_theme` returns the internal `AUTOINCREMENT` id of
the freshly inserted row (the unguessable `unique_id` is stored alongside, not
returned); and on successful finalization the state machine emits the new
row's `unique_id` — inside the private share link — only when the chosen
visibility is private, while a public submission completes without emitting
it. -/
theorem C5_createtheme_internal_id (sha : String → String)
    (parse : String → Option JValue) (s : Sys) (hs : Reach sha parse s) (u : Nat)
    (rcfg : RenderCfg) (fetch : String → Option String) (tok pv : String) :
    (∀ nm ds pub fid fh rid db',
      s.db.add_theme tok u nm ds pub fid fh pv = some (rid, db') →
      rid = s.db.next_id ∧
      ∃ name0, nm = some name0 ∧
        db'.themes = s.db.themes ++
          [⟨rid, tok, u, name0, ds, pub, fid, fh, pv, s.db.clock⟩]) ∧
    ((process_theme_privacy rcfg fetch s u "set_privacy_private" tok pv).2.success = true →
      (process_theme_privacy rcfg fetch s u "set_privacy_private" tok pv).2.emittedLink
        = some tok) ∧
    ((process_theme_privacy rcfg fetch s u "set_privacy_public" tok pv).2.emittedLink
      = none) := by
  refine ⟨?_, ?_, finalize_public_no_link rcfg fetch s u tok pv⟩
  · intro nm ds pub fid fh rid db' hadd
    obtain ⟨n0, hn0, hrid, hth, _, _, _⟩ := add_theme_spec _ _ _ _ _ _ _ _ _ _ _ hadd
    subst hn0
    subst hrid
    exact ⟨rfl, n0, rfl, hth⟩
  · exact finalize_private_emits_token rcfg fetch s u "set_privacy_private" tok pv
      ((inv_reach sha parse s hs).2.2.2) (by decide)

theorem C5_createtheme_internal_id_witness :
    ((process_theme_privacy rcfgX fetchNone w4 5 "set_privacy_private" "TOK" "PV").2.emittedLink
      = some "TOK") ∧
    ((process_theme_privacy rcfgX fetchNone w4 5 "set_privacy_public" "TOK" "PV").2.emittedLink
      = none) := by
  obtain ⟨-, b, c⟩ :=
    C5_createtheme_internal_id shaX parseX w4 reach_w4 5 rcfgX fetchNone "TOK" "PV"
  exact ⟨b (by decide), c⟩

end FunPayBot
